import Mathlib

/-!
Verification development for an n-body orbital simulator.

The simulator (a Python program built on a Vec 2-D vector class and a Body
class) advances a registry of bodies tick by tick: it accumulates pairwise
gravitational impulses, detects and merges colliding bodies, shifts every
velocity into the rest frame of a reference body, and finally advances every
position.  Auxiliary components are a bounded per-body position trace, a
grid-sampled potential-field contour extractor, and a world/view coordinate
transform pair.

This file is a shallow embedding of those components: Python floats are
modelled as real numbers, the in-place list mutation of the main loop is
modelled by explicit state passing over a list of bodies, and the
ZeroDivisionError handler of the impulse step is modelled by an explicit
zero-mass test.  Theorems about the embedding follow the definitions.
-/

namespace OrbitSim

/-- Two-dimensional vector datatype, mirroring the Vec class of vector.py. -/
@[ext]
structure Vec where
  x : ℝ
  y : ℝ

namespace Vec

-- Vec.__neg__
instance : Neg Vec := ⟨fun v => ⟨-v.x, -v.y⟩⟩
-- Vec.__add__
instance : Add Vec := ⟨fun a b => ⟨a.x + b.x, a.y + b.y⟩⟩
-- Vec.__sub__
instance : Sub Vec := ⟨fun a b => ⟨a.x - b.x, a.y - b.y⟩⟩
-- Vec.__mul__ : the product of two vectors is their dot product (a scalar)
instance : HMul Vec Vec ℝ := ⟨fun a b => a.x * b.x + a.y * b.y⟩
-- Vec.__rmul__ : scalar times vector
instance : HMul ℝ Vec Vec := ⟨fun s v => ⟨s * v.x, s * v.y⟩⟩
-- Vec.__truediv__ : vector divided by scalar
noncomputable instance : HDiv Vec ℝ Vec := ⟨fun v s => ⟨v.x / s, v.y / s⟩⟩

@[simp] lemma neg_x (v : Vec) : (-v).x = -v.x := rfl
@[simp] lemma neg_y (v : Vec) : (-v).y = -v.y := rfl
@[simp] lemma add_x (a b : Vec) : (a + b).x = a.x + b.x := rfl
@[simp] lemma add_y (a b : Vec) : (a + b).y = a.y + b.y := rfl
@[simp] lemma sub_x (a b : Vec) : (a - b).x = a.x - b.x := rfl
@[simp] lemma sub_y (a b : Vec) : (a - b).y = a.y - b.y := rfl
@[simp] lemma smul_x (s : ℝ) (v : Vec) : (s * v).x = s * v.x := rfl
@[simp] lemma smul_y (s : ℝ) (v : Vec) : (s * v).y = s * v.y := rfl
@[simp] lemma div_x (v : Vec) (s : ℝ) : (v / s).x = v.x / s := rfl
@[simp] lemma div_y (v : Vec) (s : ℝ) : (v / s).y = v.y / s := rfl
@[simp] lemma dot_def (a b : Vec) : a * b = a.x * b.x + a.y * b.y := rfl

end Vec

/-- Colour triple; the Python code represents colours as int 3-tuples. -/
abbrev Colour := ℤ × ℤ × ℤ

/-- A body of the simulation, mirroring the Body class of body.py.
The trace field holds the bounded history of past positions. -/
structure Body where
  mass : ℝ
  rad : ℝ
  pos : Vec
  vel : Vec
  colour : Colour
  name : String
  trace : List (Vec × ℝ × Colour)

/-- Body.__init__ : a freshly constructed body has an empty trace. -/
def mkBody (mass radius : ℝ) (position velocity : Vec) (colour : Colour)
    (name : String) : Body :=
  ⟨mass, radius, position, velocity, colour, name, []⟩

namespace Body

/-- Body.move : advance the position by dt times the velocity. -/
def move (b : Body) (dt : ℝ) : Body := { b with pos := b.pos + dt * b.vel }

/-- Body.boost : add an impulse to the velocity. -/
def boost (b : Body) (w : Vec) : Body := { b with vel := b.vel + w }

/-- Body.shift : displace the position. -/
def shiftBy (b : Body) (dpos : Vec) : Body := { b with pos := b.pos + dpos }

/-- Body.addTrace : append (position, marker radius 0.001, colour); when the
history length is at or above the cap, first drop the oldest entry (the
Python slice trace[1:]). -/
def addTrace (b : Body) (cap : ℕ) : Body :=
  if b.trace.length ≥ cap then
    { b with trace := b.trace.tail ++ [(b.pos, 0.001, b.colour)] }
  else
    { b with trace := b.trace ++ [(b.pos, 0.001, b.colour)] }

/-- Body.clearTrace. -/
def clearTrace (b : Body) : Body := { b with trace := [] }

@[simp] lemma move_mass (b : Body) (dt : ℝ) : (b.move dt).mass = b.mass := rfl
@[simp] lemma move_rad (b : Body) (dt : ℝ) : (b.move dt).rad = b.rad := rfl
@[simp] lemma move_pos (b : Body) (dt : ℝ) : (b.move dt).pos = b.pos + dt * b.vel := rfl
@[simp] lemma move_vel (b : Body) (dt : ℝ) : (b.move dt).vel = b.vel := rfl
@[simp] lemma boost_mass (b : Body) (w : Vec) : (b.boost w).mass = b.mass := rfl
@[simp] lemma boost_rad (b : Body) (w : Vec) : (b.boost w).rad = b.rad := rfl
@[simp] lemma boost_pos (b : Body) (w : Vec) : (b.boost w).pos = b.pos := rfl
@[simp] lemma boost_vel (b : Body) (w : Vec) : (b.boost w).vel = b.vel + w := rfl
@[simp] lemma boost_colour (b : Body) (w : Vec) : (b.boost w).colour = b.colour := rfl
@[simp] lemma boost_name (b : Body) (w : Vec) : (b.boost w).name = b.name := rfl

end Body

/-- Gravitational constant in AU^3/day^2/kg, as set in the source. -/
noncomputable def G : ℝ := 1.4881314 * (10 : ℝ) ^ (-34 : ℤ)

/-- transform : world (AU) coordinates to screen coordinates.  The globals
oldCentre position, shift, scale and absolute centre are explicit
parameters; the sequential reassignments of the source become nested lets. -/
def transform (oldCentrePos shiftV : Vec) (scale : ℝ) (absoluteCentre : Vec)
    (pos : Vec) : Vec :=
  let pos := pos - oldCentrePos
  let pos := pos + shiftV
  let pos := scale * pos
  let pos := pos + absoluteCentre
  pos

/-- detransform : inverse of transform, as written in the source. -/
noncomputable def detransform (oldCentrePos shiftV : Vec) (scale : ℝ) (absoluteCentre : Vec)
    (pos : Vec) : Vec :=
  let pos := pos - absoluteCentre
  let pos := pos / scale
  let pos := pos - shiftV
  let pos := pos + oldCentrePos
  pos

/-- radScale : log-scaled display radius, 2.5*(log10(rad)/10^2 - 0.030). -/
noncomputable def radScale (rad : ℝ) : ℝ :=
  2.5 * (Real.logb 10 rad / 10 ^ 2 - 0.030)

/-- collision : two coordinate/radius sets collide when their distance is
below the radius sum plus the 0.05 slack margin.  The source computes the
distance as sqrt((pos1-pos2)**2), where the Vec power 2 is the dot product
of the difference with itself. -/
noncomputable def collision (pos1 : Vec) (rad1 : ℝ) (pos2 : Vec) (rad2 : ℝ) : Prop :=
  Real.sqrt ((pos1 - pos2) * (pos1 - pos2)) < rad1 + rad2 + 0.05

/-- gravity : force on obj1 by obj2, Gmm * (r.r)^(p/2) * (r/|r|); the zero
vector when the separation is zero. -/
noncomputable def gravity (p : ℝ) (obj1 obj2 : Body) : Vec :=
  let Gmm := G * obj1.mass * obj2.mass
  let r := obj2.pos - obj1.pos
  if r * r ≠ 0 then
    (Gmm * (r * r) ^ (p / 2)) * (r / Real.sqrt (r * r))
  else
    ⟨0, 0⟩

/-- potential : potential at a point due to a body, G*m*(r.r)^((p+1)/2);
zero when the point coincides with the body. -/
noncomputable def potential (p : ℝ) (pos : Vec) (obj : Body) : ℝ :=
  let Gmm := G * obj.mass
  let r := obj.pos - pos
  if r * r ≠ 0 then Gmm * (r * r) ^ ((p + 1) / 2) else 0

/-- Python float modulo x % m = x - m*floor(x/m), the semantics used by the
contour-line inclusion test (faithful for m different from zero). -/
noncomputable def pymod (x m : ℝ) : ℝ := x - m * (⌊x / m⌋ : ℤ)

/-- contourLines : for each grid cell, sum the potential over the system at
the detransformed cell centre and keep the point when the sum modulo the
step is below the tolerance.  The source iterates x in range(xpoints) and,
inside it, y in range(ypoints), appending to the output list. -/
noncomputable def contourLines (p : ℝ) (system : List Body) (dims : ℝ × ℝ)
    (oldCentrePos shiftV : Vec) (scale : ℝ) (absoluteCentre : Vec)
    (xpoints ypoints : ℕ) (step res : ℝ) : List Vec :=
  (List.range xpoints).flatMap fun (x : ℕ) =>
    (List.range ypoints).filterMap fun (y : ℕ) =>
      let pt : Vec := ⟨(x : ℝ) * dims.1 / (xpoints : ℝ), (y : ℝ) * dims.2 / (ypoints : ℝ)⟩
      let pot := system.foldl
        (fun acc mass => acc + potential p (detransform oldCentrePos shiftV scale absoluteCentre pt) mass) 0
      if pymod pot step < res then
        some (detransform oldCentrePos shiftV scale absoluteCentre pt)
      else
        none

/-- averageColour, exactly as written in the source: note that the first
channel adds c1[0] to c2[1].  Python int() on the float quotient truncates
toward zero, which is Int.div. -/
def averageColour (c1 c2 : Colour) : Colour :=
  (Int.tdiv (c1.1 + c2.2.1) 2, Int.tdiv (c1.2.1 + c2.2.1) 2, Int.tdiv (c1.2.2 + c2.2.2) 2)

/-- The body the source writes into the higher-indexed slot of a merged
pair: Body(0, 1, Vec(0,0), Vec(0,0), (0,0,0), ""). -/
def sentinelBody : Body := mkBody 0 1 ⟨0, 0⟩ ⟨0, 0⟩ (0, 0, 0) ""

/-- The merged body built in the collision branch of the main loop, from the
two (already boosted) bodies of the colliding pair.  fmt stands for the
scientific-access formatting "{:.2E}".format(Decimal(.)) applied to the mass
of unnamed bodies; the else branch of the source first builds a spliced name
from the two halves and then immediately overwrites it with n1, so its net
result is n1. -/
noncomputable def mergeBody (fmt : ℝ → String) (b1 b2 : Body) : Body :=
  let m1 := b1.mass
  let m2 := b2.mass
  let r1 := b1.rad
  let r2 := b2.rad
  let r := (r1 ^ 3 + r2 ^ 3) ^ ((1 : ℝ) / 3)
  let pos := b1.pos
  let vel := (m1 * b1.vel + m2 * b2.vel) / (m1 + m2)
  let c := averageColour b1.colour b2.colour
  let n1 := b1.name
  let name := if n1.drop (n1.length - 2) = "kg" then fmt (m1 + m2) ++ "kg" else n1
  Body.mk (m1 + m2) r pos vel c name []

/-- The boost applied to the lower-indexed body of a pair: dt/m1 times the
force; the ZeroDivisionError handler of the source turns a zero mass in
either slot into a zero boost for both. -/
noncomputable def boost1V (p dt : ℝ) (bi bj : Body) : Vec :=
  if bi.mass = 0 ∨ bj.mass = 0 then ⟨0, 0⟩ else (dt / bi.mass) * gravity p bi bj

/-- The boost applied to the higher-indexed body of a pair: -dt/m2 times the
force, with the same ZeroDivisionError handling. -/
noncomputable def boost2V (p dt : ℝ) (bi bj : Body) : Vec :=
  if bi.mass = 0 ∨ bj.mass = 0 then ⟨0, 0⟩ else (-dt / bj.mass) * gravity p bi bj

/-- State threaded through the pair scan of a tick: the registry (whose
length never changes during the scan), the deferred-deletion index list, and
two observation logs used only by theorems: the pairs that merged, and the
arguments handed to gravity at each pair step. -/
structure ScanState where
  sys : List Body
  delete : List ℕ
  merges : List (ℕ × ℕ)
  flog : List (ℕ × ℕ × Body × Body)

open Classical in
/-- One iteration of the nested pair loop of the main simulation loop, for
the pair (i, j): compute the force, apply the two boosts in place, then test
the collision predicate on the boosted pair and, when it holds, splice the
merged body into slot i and the sentinel into slot j (the Python
system[:i] + [merged] + system[i+1:j] + [sentinel] + system[j+1:]) and mark
j for deletion.  The merges and flog fields only record what happened. -/
noncomputable def pairStep (p dt : ℝ) (fmt : ℝ → String) (st : ScanState)
    (ij : ℕ × ℕ) : ScanState :=
  let i := ij.1
  let j := ij.2
  let bi := st.sys.getD i sentinelBody
  let bj := st.sys.getD j sentinelBody
  let sys1 := (st.sys.set i (bi.boost (boost1V p dt bi bj))).set j (bj.boost (boost2V p dt bi bj))
  let bi1 := sys1.getD i sentinelBody
  let bj1 := sys1.getD j sentinelBody
  if collision bi1.pos (radScale bi1.rad) bj1.pos (radScale bj1.rad) then
    { sys := sys1.take i ++ [mergeBody fmt bi1 bj1] ++ ((sys1.drop (i + 1)).take (j - (i + 1)))
        ++ [sentinelBody] ++ sys1.drop (j + 1)
      delete := st.delete ++ [j]
      merges := st.merges ++ [(i, j)]
      flog := st.flog ++ [(i, j, bi, bj)] }
  else
    { st with sys := sys1, flog := st.flog ++ [(i, j, bi, bj)] }

/-- The index pairs visited by the nested loops for i in range(n), for j in
range(i+1, n), in visiting order. -/
def pairList (n : ℕ) : List (ℕ × ℕ) :=
  (List.range n).flatMap fun i => (List.range' (i + 1) (n - (i + 1))).map fun j => (i, j)

/-- The whole pair scan of one tick over a registry. -/
noncomputable def scan (p dt : ℝ) (fmt : ℝ → String) (system : List Body) : ScanState :=
  (pairList system.length).foldl (pairStep p dt fmt) ⟨system, [], [], []⟩

/-- Ascending insertion used to model the Python list sort. -/
def insertAsc (x : ℕ) : List ℕ → List ℕ
  | [] => [x]
  | y :: ys => if x ≤ y then x :: y :: ys else y :: insertAsc x ys

/-- Ascending sort used to model the Python delete.sort(). -/
def sortAsc (l : List ℕ) : List ℕ := l.foldr insertAsc []

/-- The deferred-deletion phase: deduplicate (list(set(delete))), sort,
reverse, and delete the marked slots in descending index order. -/
def applyDeletes (system : List Body) (delete : List ℕ) : List Body :=
  ((sortAsc delete.dedup).reverse).foldl (fun s k => s.eraseIdx k) system

/-- One physics tick with the pause flag off and tracing off: the pair scan
(impulses plus collision merges), the deferred deletions, then for every
body the shift into the reference rest frame (boost by minus the reference
velocity) followed by the position advance. -/
noncomputable def tick (p dt : ℝ) (fmt : ℝ → String) (vshift : Vec)
    (system : List Body) : List Body :=
  let st := scan p dt fmt system
  let system := applyDeletes st.sys st.delete
  system.map fun mass => (mass.boost (-vshift)).move dt

/-- Total momentum of a registry: the sum over bodies of mass times
velocity, taken component-wise. -/
def totalMomentum (l : List Body) : Vec :=
  ⟨(l.map fun b => b.mass * b.vel.x).sum, (l.map fun b => b.mass * b.vel.y).sum⟩

/-- Total mass of a registry. -/
def totalMass (l : List Body) : ℝ := (l.map Body.mass).sum

/-- Tick-start position of the body in slot k. -/
def startPos (system : List Body) (k : ℕ) : Vec := (system.getD k sentinelBody).pos

/-- No pair of bodies of the registry satisfies the collision predicate at
its tick-start position and radius. -/
noncomputable def noCollide (system : List Body) : Prop :=
  ∀ ij ∈ pairList system.length,
    ¬ collision (system.getD ij.1 sentinelBody).pos
        (radScale (system.getD ij.1 sentinelBody).rad)
        (system.getD ij.2 sentinelBody).pos
        (radScale (system.getD ij.2 sentinelBody).rad)

/-! ### List helper lemmas -/

section ListLemmas

variable {α β : Type*}

lemma getD_map (f : α → β) (l : List α) (k : ℕ) (d : α) :
    (l.map f).getD k (f d) = f (l.getD k d) := by
  induction l generalizing k with
  | nil => simp
  | cons a t ih => cases k <;> simp [ih]

lemma getD_set_self (l : List α) (i : ℕ) (a d : α) (h : i < l.length) :
    (l.set i a).getD i d = a := by
  induction l generalizing i with
  | nil => simp at h
  | cons x t ih =>
      cases i with
      | zero => simp
      | succ n => simpa using ih n (by simpa using h)

lemma getD_set_ne (l : List α) (i k : ℕ) (a d : α) (h : i ≠ k) :
    (l.set i a).getD k d = l.getD k d := by
  induction l generalizing i k with
  | nil => simp
  | cons x t ih =>
      cases i with
      | zero =>
          cases k with
          | zero => exact absurd rfl h
          | succ m => simp
      | succ n =>
          cases k with
          | zero => simp
          | succ m => simpa using ih n m (by omega)

lemma set_getD_self (l : List α) (i : ℕ) (d : α) :
    l.set i (l.getD i d) = l := by
  induction l generalizing i with
  | nil => simp
  | cons x t ih =>
      cases i with
      | zero => simp
      | succ n => simpa [List.getD] using ih n

lemma sum_set (l : List ℝ) (i : ℕ) (x : ℝ) (h : i < l.length) :
    (l.set i x).sum = l.sum - l.getD i 0 + x := by
  induction l generalizing i with
  | nil => simp at h
  | cons a t ih =>
      cases i with
      | zero => simp [List.sum_cons]; ring
      | succ n =>
          have hn := ih n (by simpa using h)
          simp [List.sum_cons, hn]; ring

end ListLemmas

lemma mem_pairList {n i j : ℕ} : (i, j) ∈ pairList n ↔ i < j ∧ j < n := by
  simp only [pairList, List.mem_flatMap, List.mem_map, List.mem_range, List.mem_range'_1,
    Prod.mk.injEq]
  constructor
  · rintro ⟨a, ha, b, ⟨hb1, hb2⟩, rfl, rfl⟩
    omega
  · rintro ⟨hij, hjn⟩
    exact ⟨i, by omega, j, ⟨by omega, by omega⟩, rfl, rfl⟩

lemma applyDeletes_nil (l : List Body) : applyDeletes l [] = l := rfl

/-! ### Claim theorems: merge fields, trace buffer, coordinate transforms,
colour averaging -/

/-- Claim C1: for every colliding pair of bodies with m1+m2 > 0, the merged
body has mass m1+m2, radius (r1^3+r2^3)^(1/3), the position of the
lower-indexed body, and the momentum-weighted velocity
(m1 v1 + m2 v2)/(m1+m2). -/
theorem mergeBody_spec (fmt : ℝ → String) (b1 b2 : Body)
    (hm : 0 < b1.mass + b2.mass) :
    (mergeBody fmt b1 b2).mass = b1.mass + b2.mass ∧
    (mergeBody fmt b1 b2).rad = (b1.rad ^ 3 + b2.rad ^ 3) ^ ((1 : ℝ) / 3) ∧
    (mergeBody fmt b1 b2).pos = b1.pos ∧
    (mergeBody fmt b1 b2).vel =
      (b1.mass * b1.vel + b2.mass * b2.vel) / (b1.mass + b2.mass) :=
  ⟨rfl, rfl, rfl, rfl⟩

/-- Witness for mergeBody_spec: merging A (mass 10, velocity (1,0)) with
B (mass 10, velocity (-1,0)) yields mass 20 and velocity (0,0). -/
theorem mergeBody_spec_example :
    (0 : ℝ) < 10 + 10 ∧
    (mergeBody (fun _ => "") (mkBody 10 1 ⟨0, 0⟩ ⟨1, 0⟩ (0, 0, 0) "A")
      (mkBody 10 1 ⟨0.01, 0⟩ ⟨-1, 0⟩ (0, 0, 0) "B")).mass = 20 ∧
    (mergeBody (fun _ => "") (mkBody 10 1 ⟨0, 0⟩ ⟨1, 0⟩ (0, 0, 0) "A")
      (mkBody 10 1 ⟨0.01, 0⟩ ⟨-1, 0⟩ (0, 0, 0) "B")).vel = ⟨0, 0⟩ := by
  have h := mergeBody_spec (fun _ => "") (mkBody 10 1 ⟨0, 0⟩ ⟨1, 0⟩ (0, 0, 0) "A")
    (mkBody 10 1 ⟨0.01, 0⟩ ⟨-1, 0⟩ (0, 0, 0) "B") (by norm_num [mkBody])
  refine ⟨by norm_num, ?_, ?_⟩
  · rw [h.1]; norm_num [mkBody]
  · rw [h.2.2.2]; ext <;> simp [mkBody] <;> norm_num

/-- Claim C7: for nonzero scale, detransform and transform are exact mutual
inverses for every point and every (centre, shift, scale, screen centre)
state. -/
theorem transform_detransform_inverse (oldCentrePos shiftV : Vec) (scale : ℝ)
    (absoluteCentre : Vec) (hs : scale ≠ 0) (pv : Vec) :
    detransform oldCentrePos shiftV scale absoluteCentre
        (transform oldCentrePos shiftV scale absoluteCentre pv) = pv ∧
    transform oldCentrePos shiftV scale absoluteCentre
        (detransform oldCentrePos shiftV scale absoluteCentre pv) = pv := by
  constructor <;> (ext <;> simp [transform, detransform] <;> field_simp)

/-- Witness for transform_detransform_inverse at a concrete state. -/
theorem transform_detransform_inverse_example :
    (2 : ℝ) ≠ 0 ∧
    detransform ⟨1, 2⟩ ⟨3, 4⟩ 2 ⟨5, 6⟩
      (transform ⟨1, 2⟩ ⟨3, 4⟩ 2 ⟨5, 6⟩ ⟨7, 8⟩) = ⟨7, 8⟩ :=
  ⟨by norm_num,
    (transform_detransform_inverse ⟨1, 2⟩ ⟨3, 4⟩ 2 ⟨5, 6⟩ (by norm_num) ⟨7, 8⟩).1⟩

/-- Claim C8 (code bug): averageColour applied to (10,0,0) and (0,6,0)
returns (8,3,0) because the first channel adds the red of the first colour
to the green of the second; the component-wise average claimed by the spec
would be (5,3,0). -/
theorem averageColour_mixes_channels :
    averageColour (10, 0, 0) (0, 6, 0) = (8, 3, 0) ∧
    averageColour (10, 0, 0) (0, 6, 0) ≠ (5, 3, 0) := by
  constructor <;> decide

/-- Claim C6 counterexample: with cap 0, one record on a fresh body leaves a
history of length 1, which exceeds the cap. -/
theorem addTrace_cap_zero_overflow :
    ((mkBody 1 1 ⟨0, 0⟩ ⟨0, 0⟩ (0, 0, 0) "").addTrace 0).trace.length = 1 ∧
    ¬ ((mkBody 1 1 ⟨0, 0⟩ ⟨0, 0⟩ (0, 0, 0) "").addTrace 0).trace.length ≤ 0 := by
  constructor <;> simp [mkBody, Body.addTrace]

/-- Claim C6, amended: for every cap of at least 1, the history length never
exceeds the cap over any sequence of records starting at or below the cap,
and once at or above the cap each record drops exactly the oldest entry
before appending the new one (strict FIFO). -/
theorem addTrace_fifo (cap : ℕ) (hcap : 1 ≤ cap) :
    (∀ (b : Body) (n : ℕ), b.trace.length ≤ cap →
      ((fun x => Body.addTrace x cap)^[n] b).trace.length ≤ cap) ∧
    (∀ b : Body, cap ≤ b.trace.length →
      (b.addTrace cap).trace = b.trace.tail ++ [(b.pos, 0.001, b.colour)]) := by
  constructor
  · intro b n
    induction n generalizing b with
    | zero => simpa using id
    | succ m ih =>
        intro hb
        rw [Function.iterate_succ_apply]
        apply ih
        unfold Body.addTrace
        by_cases hge : b.trace.length ≥ cap
        · rw [if_pos hge]
          simp only [List.length_append, List.length_tail, List.length_cons,
            List.length_nil]
          omega
        · rw [if_neg hge]
          simp only [List.length_append, List.length_cons, List.length_nil]
          omega
  · intro b hb
    unfold Body.addTrace
    rw [if_pos hb]

/-- Witness for addTrace_fifo: cap 1, three records on a fresh body. -/
theorem addTrace_fifo_example :
    1 ≤ 1 ∧ (mkBody 1 1 ⟨0, 0⟩ ⟨0, 0⟩ (0, 0, 0) "").trace.length ≤ 1 ∧
    ((fun x => Body.addTrace x 1)^[3]
      (mkBody 1 1 ⟨0, 0⟩ ⟨0, 0⟩ (0, 0, 0) "")).trace.length ≤ 1 :=
  ⟨le_refl 1, by simp [mkBody],
    (addTrace_fifo 1 (le_refl 1)).1 (mkBody 1 1 ⟨0, 0⟩ ⟨0, 0⟩ (0, 0, 0) "") 3
      (by simp [mkBody])⟩

/-- Claim C10 counterexample: with cap 0 and empty history, the length is at
or above the cap yet the record changes the length from 0 to 1. -/
theorem addTrace_cap_zero_changes_length :
    ((mkBody 2 1 ⟨1, 0⟩ ⟨0, 0⟩ (0, 0, 0) "x").addTrace 0).trace.length ≠
      (mkBody 2 1 ⟨1, 0⟩ ⟨0, 0⟩ (0, 0, 0) "x").trace.length := by
  simp [mkBody, Body.addTrace]

/-- Claim C10, amended: one record call increases the length by exactly one
below the cap; at or above the cap with a nonempty history it leaves the
length unchanged (with cap 0 on an empty history it appends instead); and
the length never decreases, so a cap below the current length does not
truncate the history. -/
theorem addTrace_length_step (b : Body) (cap : ℕ) :
    (b.trace.length < cap → (b.addTrace cap).trace.length = b.trace.length + 1) ∧
    (cap ≤ b.trace.length → 1 ≤ b.trace.length →
      (b.addTrace cap).trace.length = b.trace.length) ∧
    b.trace.length ≤ (b.addTrace cap).trace.length := by
  unfold Body.addTrace
  by_cases hge : b.trace.length ≥ cap
  · rw [if_pos hge]
    refine ⟨fun hlt => absurd hlt (by omega), fun _ h1 => ?_, ?_⟩ <;>
      · simp only [List.length_append, List.length_tail, List.length_cons, List.length_nil]
        omega
  · rw [if_neg hge]
    exact ⟨fun _ => by simp, fun hle _ => absurd hle (by omega), by simp⟩

/-- A body carrying a two-entry trace history, used to instantiate the
record-length theorem. -/
noncomputable def tracedBody : Body :=
  Body.mk 1 1 ⟨0, 0⟩ ⟨0, 0⟩ (0, 0, 0) ""
    [(⟨0, 0⟩, 0.001, (0, 0, 0)), (⟨1, 1⟩, 0.001, (0, 0, 0))]

/-- Witness for addTrace_length_step: a record with cap 1 on a body whose
history has length 2 keeps the length at 2. -/
theorem addTrace_length_step_example :
    1 ≤ tracedBody.trace.length ∧
    (tracedBody.addTrace 1).trace.length = tracedBody.trace.length :=
  ⟨by simp [tracedBody],
    (addTrace_length_step tracedBody 1).2.1 (by simp [tracedBody]) (by simp [tracedBody])⟩

/-! ### Claim theorems: force law and potential-field sampler -/

/-- Euclidean norm of a Vec: the square root of its dot product with
itself. -/
noncomputable def vnorm (v : Vec) : ℝ := Real.sqrt (v * v)

/-- Claim C4: the force on a by b is G m_a m_b |r|^p (r/|r|) with
r = pos b - pos a, and the zero vector when the positions coincide. -/
theorem gravity_spec (p : ℝ) (a b : Body) :
    (a.pos = b.pos → gravity p a b = ⟨0, 0⟩) ∧
    (a.pos ≠ b.pos → gravity p a b =
      (G * a.mass * b.mass * vnorm (b.pos - a.pos) ^ p) *
        ((b.pos - a.pos) / vnorm (b.pos - a.pos))) := by
  constructor
  · intro h
    simp only [gravity]
    rw [if_neg]
    simp [Vec.dot_def, h]
  · intro h
    have hne : (b.pos - a.pos).x ≠ 0 ∨ (b.pos - a.pos).y ≠ 0 := by
      by_contra hc
      push_neg at hc
      apply h
      have h1 := hc.1
      have h2 := hc.2
      simp only [Vec.sub_x, Vec.sub_y] at h1 h2
      ext <;> linarith
    have hrr : (0 : ℝ) < ((b.pos - a.pos) * (b.pos - a.pos) : ℝ) := by
      rw [Vec.dot_def]
      rcases hne with hx | hy
      · nlinarith [mul_self_pos.mpr hx, mul_self_nonneg (b.pos - a.pos).y]
      · nlinarith [mul_self_pos.mpr hy, mul_self_nonneg (b.pos - a.pos).x]
    have hsq : vnorm (b.pos - a.pos) ^ p
        = ((b.pos - a.pos) * (b.pos - a.pos)) ^ (p / 2) := by
      rw [vnorm, Real.sqrt_eq_rpow, ← Real.rpow_mul (le_of_lt hrr)]
      rw [show (1 : ℝ) / 2 * p = p / 2 from by ring]
    simp only [gravity]
    rw [if_pos (ne_of_gt hrr), hsq, vnorm]

/-- Witness for gravity_spec: unit masses at (0,0) and (1,0) with exponent
2 give the force vector (G, 0). -/
theorem gravity_spec_example :
    (mkBody 1 1 ⟨0, 0⟩ ⟨0, 0⟩ (0, 0, 0) "a").pos ≠
      (mkBody 1 1 ⟨1, 0⟩ ⟨0, 0⟩ (0, 0, 0) "b").pos ∧
    gravity 2 (mkBody 1 1 ⟨0, 0⟩ ⟨0, 0⟩ (0, 0, 0) "a")
      (mkBody 1 1 ⟨1, 0⟩ ⟨0, 0⟩ (0, 0, 0) "b") = ⟨G, 0⟩ := by
  have hne : (mkBody 1 1 ⟨0, 0⟩ ⟨0, 0⟩ (0, 0, 0) "a").pos ≠
      (mkBody 1 1 ⟨1, 0⟩ ⟨0, 0⟩ (0, 0, 0) "b").pos := by
    simp only [mkBody, ne_eq, Vec.ext_iff]
    norm_num
  refine ⟨hne, ?_⟩
  rw [(gravity_spec 2 (mkBody 1 1 ⟨0, 0⟩ ⟨0, 0⟩ (0, 0, 0) "a")
    (mkBody 1 1 ⟨1, 0⟩ ⟨0, 0⟩ (0, 0, 0) "b")).2 hne]
  have hv : vnorm ((mkBody 1 1 ⟨1, 0⟩ ⟨0, 0⟩ (0, 0, 0) "b").pos -
      (mkBody 1 1 ⟨0, 0⟩ ⟨0, 0⟩ (0, 0, 0) "a").pos) = 1 := by
    simp only [mkBody, vnorm, Vec.dot_def, Vec.sub_x, Vec.sub_y]
    norm_num
  rw [hv]
  ext <;> simp [mkBody, Real.one_rpow]

/-- Python float modulo of zero is zero (for the model, any modulus). -/
lemma pymod_zero (m : ℝ) : pymod 0 m = 0 := by
  simp [pymod]

/-- Helper: filterMap with a function that always returns some preserves
length. -/
lemma length_filterMap_some {α β : Type*} (l : List α) (g : α → β) :
    (l.filterMap fun a => some (g a)).length = l.length := by
  induction l with
  | nil => rfl
  | cons a t ih => simp [List.filterMap_cons, ih]

/-- Helper: sum of a constant map. -/
lemma sum_map_const_nat {α : Type*} (l : List α) (c : ℕ) :
    (l.map fun _ => c).sum = l.length * c := by
  induction l with
  | nil => simp
  | cons a t ih => simp [ih, Nat.succ_mul, Nat.add_comm]

/-- Claim C5 counterexample: with zero bodies, a 1 by 1 grid and the
configured step and tolerance, the sampler returns a nonempty point set:
the summed potential is 0, and 0 modulo the step is 0, which is below the
tolerance, so the grid point is included. -/
theorem contourLines_empty_system_nonempty :
    contourLines (-2) [] (100, 100) ⟨0, 0⟩ ⟨0, 0⟩ 24 ⟨50, 50⟩ 1 1
      (10 * (10 : ℝ) ^ (-5 : ℤ)) (2 * (10 : ℝ) ^ (-5 : ℤ)) ≠ [] := by
  unfold contourLines
  rw [show List.range 1 = [0] from rfl]
  simp only [List.flatMap_cons, List.flatMap_nil, List.foldl_nil,
    pymod_zero, List.filterMap_cons, List.filterMap_nil]
  simp only [show (0 : ℝ) < 2 * (10 : ℝ) ^ (-5 : ℤ) from by norm_num, if_true]
  simp

/-- Claim C5, amended: with zero bodies, a nonzero step and a positive
tolerance, the sampler includes every grid point: the output has exactly
xpoints times ypoints entries (the empty set appears only for an empty
grid or a nonpositive tolerance). -/
theorem contourLines_empty_system_full_grid (p : ℝ) (dims : ℝ × ℝ)
    (oldCentrePos shiftV : Vec) (scale : ℝ) (absoluteCentre : Vec)
    (xpoints ypoints : ℕ) (step res : ℝ) (hstep : step ≠ 0) (hres : 0 < res) :
    (contourLines p [] dims oldCentrePos shiftV scale absoluteCentre
        xpoints ypoints step res).length = xpoints * ypoints := by
  unfold contourLines
  simp only [List.foldl_nil, pymod_zero, hres, if_true]
  rw [List.length_flatMap]
  simp only [Function.comp_def, length_filterMap_some, List.length_range,
    sum_map_const_nat]

/-- Witness for contourLines_empty_system_full_grid: a 2 by 3 grid with the
configured step and tolerance yields all 6 grid points. -/
theorem contourLines_empty_system_example :
    ((10 : ℝ) * (10 : ℝ) ^ (-5 : ℤ) ≠ 0) ∧ (0 < (2 : ℝ) * (10 : ℝ) ^ (-5 : ℤ)) ∧
    (contourLines (-2) [] (100, 100) ⟨0, 0⟩ ⟨0, 0⟩ 24 ⟨50, 50⟩ 2 3
      (10 * (10 : ℝ) ^ (-5 : ℤ)) (2 * (10 : ℝ) ^ (-5 : ℤ))).length = 2 * 3 :=
  ⟨by norm_num, by norm_num,
    contourLines_empty_system_full_grid (-2) (100, 100) ⟨0, 0⟩ ⟨0, 0⟩ 24 ⟨50, 50⟩ 2 3
      (10 * (10 : ℝ) ^ (-5 : ℤ)) (2 * (10 : ℝ) ^ (-5 : ℤ)) (by norm_num) (by norm_num)⟩

/-! ### The pair scan on a collision-free registry -/

lemma getD_eq_getD {α : Type*} (l : List α) (i : ℕ) (d d' : α) (h : i < l.length) :
    l.getD i d = l.getD i d' := by
  induction l generalizing i with
  | nil => simp at h
  | cons x t ih =>
      cases i with
      | zero => simp
      | succ n => simpa using ih n (by simpa using h)

/-- The shape of a pair step whose collision test fails: only the two
velocities change and the pair is logged. -/
lemma pairStep_eq_nomerge (p dt : ℝ) (fmt : ℝ → String) (st : ScanState) (i j : ℕ)
    (hij : i ≠ j) (hi : i < st.sys.length) (hj : j < st.sys.length)
    (h : ¬ collision (st.sys.getD i sentinelBody).pos
        (radScale (st.sys.getD i sentinelBody).rad)
        (st.sys.getD j sentinelBody).pos
        (radScale (st.sys.getD j sentinelBody).rad)) :
    pairStep p dt fmt st (i, j) =
      { st with
        sys := (st.sys.set i ((st.sys.getD i sentinelBody).boost
            (boost1V p dt (st.sys.getD i sentinelBody) (st.sys.getD j sentinelBody)))).set j
          ((st.sys.getD j sentinelBody).boost
            (boost2V p dt (st.sys.getD i sentinelBody) (st.sys.getD j sentinelBody)))
        flog := st.flog ++ [(i, j, st.sys.getD i sentinelBody, st.sys.getD j sentinelBody)] } := by
  simp only [pairStep]
  rw [getD_set_ne _ j i _ _ (Ne.symm hij), getD_set_self _ i _ _ hi,
    getD_set_self _ j _ _ (by simpa using hj)]
  simp only [Body.boost_pos, Body.boost_rad]
  rw [if_neg h]

/-- The two boosts of a pair carry opposite momentum, component-wise. -/
lemma boost_momentum_cancel (p dt : ℝ) (bi bj : Body) :
    bi.mass * (boost1V p dt bi bj).x + bj.mass * (boost2V p dt bi bj).x = 0 ∧
    bi.mass * (boost1V p dt bi bj).y + bj.mass * (boost2V p dt bi bj).y = 0 := by
  unfold boost1V boost2V
  by_cases h0 : bi.mass = 0 ∨ bj.mass = 0
  · rw [if_pos h0, if_pos h0]
    constructor <;> simp
  · rw [if_neg h0, if_neg h0]
    push_neg at h0
    obtain ⟨h1, h2⟩ := h0
    constructor <;>
      · simp only [Vec.smul_x, Vec.smul_y]
        field_simp
        ring

/-- Sum of a real-valued field over a registry with two distinct slots
replaced. -/
lemma sum_map_set_pair (f : Body → ℝ) (l : List Body) (i j : ℕ) (hij : i ≠ j)
    (hi : i < l.length) (hj : j < l.length) (bi' bj' : Body) :
    (((l.set i bi').set j bj').map f).sum
      = (l.map f).sum - f (l.getD i sentinelBody) + f bi'
        - f (l.getD j sentinelBody) + f bj' := by
  rw [List.map_set, List.map_set]
  rw [sum_set _ j (f bj') (by simpa using hj)]
  rw [getD_set_ne _ i j _ _ hij]
  rw [sum_set _ i (f bi') (by simpa using hi)]
  rw [getD_eq_getD (l.map f) i 0 (f sentinelBody) (by simpa using hi),
      getD_eq_getD (l.map f) j 0 (f sentinelBody) (by simpa using hj),
      getD_map, getD_map]

/-- Invariant carried through the pair scan of a tick in which no pair of
bodies collides: positions, radii and masses are the tick-start ones, total
momentum is unchanged, nothing was marked or merged, and every force
evaluation so far received bodies at tick-start positions. -/
structure ScanInv (sys0 : List Body) (st : ScanState) : Prop where
  pos_eq : st.sys.map Body.pos = sys0.map Body.pos
  rad_eq : st.sys.map Body.rad = sys0.map Body.rad
  mass_eq : st.sys.map Body.mass = sys0.map Body.mass
  mom_eq : totalMomentum st.sys = totalMomentum sys0
  del_nil : st.delete = []
  mer_nil : st.merges = []
  flog_start : ∀ e ∈ st.flog,
    e.2.2.1.pos = startPos sys0 e.1 ∧ e.2.2.2.pos = startPos sys0 e.2.1

lemma getD_field_eq {α : Type*} {f : Body → α} {l1 l2 : List Body}
    (hmap : l1.map f = l2.map f) (k : ℕ) :
    f (l1.getD k sentinelBody) = f (l2.getD k sentinelBody) := by
  rw [← getD_map f l1 k sentinelBody, ← getD_map f l2 k sentinelBody, hmap]

lemma pairStep_inv (p dt : ℝ) (fmt : ℝ → String) (sys0 : List Body) (st : ScanState)
    (i j : ℕ) (hij : i < j) (hj : j < sys0.length) (hnc : noCollide sys0)
    (hinv : ScanInv sys0 st) : ScanInv sys0 (pairStep p dt fmt st (i, j)) := by
  have hlen : st.sys.length = sys0.length := by
    have hc := congrArg List.length hinv.pos_eq
    simpa using hc
  have hi' : i < st.sys.length := by omega
  have hj' : j < st.sys.length := by omega
  have hpos_i : (st.sys.getD i sentinelBody).pos = (sys0.getD i sentinelBody).pos :=
    getD_field_eq hinv.pos_eq i
  have hpos_j : (st.sys.getD j sentinelBody).pos = (sys0.getD j sentinelBody).pos :=
    getD_field_eq hinv.pos_eq j
  have hrad_i : (st.sys.getD i sentinelBody).rad = (sys0.getD i sentinelBody).rad :=
    getD_field_eq hinv.rad_eq i
  have hrad_j : (st.sys.getD j sentinelBody).rad = (sys0.getD j sentinelBody).rad :=
    getD_field_eq hinv.rad_eq j
  have hC := hnc (i, j) (mem_pairList.mpr ⟨hij, hj⟩)
  rw [pairStep_eq_nomerge p dt fmt st i j (by omega) hi' hj'
    (by rw [hpos_i, hpos_j, hrad_i, hrad_j]; exact hC)]
  constructor
  case pos_eq =>
    rw [List.map_set, List.map_set]
    simp only [Body.boost_pos]
    rw [show (st.sys.getD i sentinelBody).pos
        = (st.sys.map Body.pos).getD i sentinelBody.pos from (getD_map _ _ _ _).symm,
      set_getD_self]
    rw [show (st.sys.getD j sentinelBody).pos
        = (st.sys.map Body.pos).getD j sentinelBody.pos from (getD_map _ _ _ _).symm,
      set_getD_self]
    exact hinv.pos_eq
  case rad_eq =>
    rw [List.map_set, List.map_set]
    simp only [Body.boost_rad]
    rw [show (st.sys.getD i sentinelBody).rad
        = (st.sys.map Body.rad).getD i sentinelBody.rad from (getD_map _ _ _ _).symm,
      set_getD_self]
    rw [show (st.sys.getD j sentinelBody).rad
        = (st.sys.map Body.rad).getD j sentinelBody.rad from (getD_map _ _ _ _).symm,
      set_getD_self]
    exact hinv.rad_eq
  case mass_eq =>
    rw [List.map_set, List.map_set]
    simp only [Body.boost_mass]
    rw [show (st.sys.getD i sentinelBody).mass
        = (st.sys.map Body.mass).getD i sentinelBody.mass from (getD_map _ _ _ _).symm,
      set_getD_self]
    rw [show (st.sys.getD j sentinelBody).mass
        = (st.sys.map Body.mass).getD j sentinelBody.mass from (getD_map _ _ _ _).symm,
      set_getD_self]
    exact hinv.mass_eq
  case mom_eq =>
    have hcx := (boost_momentum_cancel p dt (st.sys.getD i sentinelBody)
      (st.sys.getD j sentinelBody)).1
    have hcy := (boost_momentum_cancel p dt (st.sys.getD i sentinelBody)
      (st.sys.getD j sentinelBody)).2
    rw [← hinv.mom_eq]
    unfold totalMomentum
    ext
    · simp only
      rw [sum_map_set_pair _ _ _ _ (by omega) hi' hj']
      simp only [Body.boost_mass, Body.boost_vel, Vec.add_x]
      nlinarith [hcx]
    · simp only
      rw [sum_map_set_pair _ _ _ _ (by omega) hi' hj']
      simp only [Body.boost_mass, Body.boost_vel, Vec.add_y]
      nlinarith [hcy]
  case del_nil => exact hinv.del_nil
  case mer_nil => exact hinv.mer_nil
  case flog_start =>
    intro e he
    rw [List.mem_append] at he
    rcases he with he | he
    · exact hinv.flog_start e he
    · rw [List.mem_singleton] at he
      subst he
      refine ⟨?_, ?_⟩
      · rw [hpos_i]; rfl
      · rw [hpos_j]; rfl

lemma foldl_pairStep_inv (p dt : ℝ) (fmt : ℝ → String) (sys0 : List Body)
    (hnc : noCollide sys0) (L : List (ℕ × ℕ)) :
    ∀ st : ScanState, (∀ ij ∈ L, ij.1 < ij.2 ∧ ij.2 < sys0.length) → ScanInv sys0 st →
      ScanInv sys0 (L.foldl (pairStep p dt fmt) st) := by
  induction L with
  | nil => intro st _ h; exact h
  | cons a t ih =>
      obtain ⟨i, j⟩ := a
      intro st hmem hinv
      rw [List.foldl_cons]
      apply ih
      · intro ij hij
        exact hmem ij (List.mem_cons_of_mem _ hij)
      · obtain ⟨h1, h2⟩ := hmem (i, j) (List.mem_cons_self _ _)
        exact pairStep_inv p dt fmt sys0 st i j h1 h2 hnc hinv

/-- On a collision-free registry the whole pair scan keeps positions, radii,
masses and total momentum, marks nothing, merges nothing, and evaluates
every pairwise force at tick-start positions. -/
lemma scan_inv (p dt : ℝ) (fmt : ℝ → String) (sys : List Body)
    (hnc : noCollide sys) : ScanInv sys (scan p dt fmt sys) := by
  apply foldl_pairStep_inv p dt fmt sys hnc
  · intro ij hij
    obtain ⟨i, j⟩ := ij
    exact mem_pairList.mp hij
  · exact ⟨rfl, rfl, rfl, rfl, rfl, rfl, by simp⟩

lemma sum_map_boost_move_x (l : List Body) (w : Vec) (dt : ℝ) :
    (l.map fun b => ((b.boost w).move dt).mass * ((b.boost w).move dt).vel.x).sum
      = (l.map fun b => b.mass * b.vel.x).sum + (l.map Body.mass).sum * w.x := by
  induction l with
  | nil => simp
  | cons b t ih =>
      simp only [List.map_cons, List.sum_cons, Body.move_mass, Body.boost_mass,
        Body.move_vel, Body.boost_vel, Vec.add_x] at ih ⊢
      rw [ih]
      ring

lemma sum_map_boost_move_y (l : List Body) (w : Vec) (dt : ℝ) :
    (l.map fun b => ((b.boost w).move dt).mass * ((b.boost w).move dt).vel.y).sum
      = (l.map fun b => b.mass * b.vel.y).sum + (l.map Body.mass).sum * w.y := by
  induction l with
  | nil => simp
  | cons b t ih =>
      simp only [List.map_cons, List.sum_cons, Body.move_mass, Body.boost_mass,
        Body.move_vel, Body.boost_vel, Vec.add_y] at ih ⊢
      rw [ih]
      ring

/-- The reference-frame shift plus position advance changes the total
momentum by the total mass times the applied velocity shift. -/
lemma totalMomentum_boost_move (l : List Body) (w : Vec) (dt : ℝ) :
    totalMomentum (l.map fun b => (b.boost w).move dt)
      = totalMomentum l + totalMass l * w := by
  unfold totalMomentum totalMass
  rw [List.map_map, List.map_map]
  ext
  · simpa [Function.comp_def] using sum_map_boost_move_x l w dt
  · simpa [Function.comp_def] using sum_map_boost_move_y l w dt

/-- Claim C2, amended: across a full tick in which no pair of bodies
collides, the total momentum of the registry changes by exactly minus the
total mass times the reference velocity that is subtracted from every body;
it is invariant precisely in the rest-frame case, namely whenever the
reference velocity is the zero vector (as for the default origin centre). -/
theorem tick_momentum (p dt : ℝ) (fmt : ℝ → String) (vshift : Vec)
    (sys : List Body) (hnc : noCollide sys) :
    totalMomentum (tick p dt fmt vshift sys)
      = totalMomentum sys - totalMass sys * vshift ∧
    (vshift = ⟨0, 0⟩ → totalMomentum (tick p dt fmt vshift sys) = totalMomentum sys) := by
  have hinv := scan_inv p dt fmt sys hnc
  have key : totalMomentum (tick p dt fmt vshift sys)
      = totalMomentum sys - totalMass sys * vshift := by
    simp only [tick]
    rw [hinv.del_nil, applyDeletes_nil, totalMomentum_boost_move, hinv.mom_eq]
    have hm : totalMass (scan p dt fmt sys).sys = totalMass sys :=
      congrArg List.sum hinv.mass_eq
    rw [show totalMass (scan p dt fmt sys).sys = totalMass sys from hm]
    ext <;> simp <;> ring
  exact ⟨key, fun hv => by rw [key, hv]; ext <;> simp⟩

/-- A single isolated body used as a concrete registry. -/
noncomputable def loneBody : Body := mkBody 1 1000000 ⟨0, 0⟩ ⟨1, 0⟩ (25, 25, 25) "m"

/-- Claim C2 counterexample: a registry with one body of mass 1 and
velocity (1,0) whose own velocity is the reference velocity (the body is
the selected centre).  The tick has no colliding pair, yet total momentum
drops from (1,0) to (0,0) because the frame shift subtracts the reference
velocity from every body. -/
theorem tick_momentum_not_invariant :
    noCollide [loneBody] ∧
    totalMomentum (tick (-2) 1 (fun _ => "") ⟨1, 0⟩ [loneBody])
      ≠ totalMomentum [loneBody] := by
  constructor
  · intro ij hij
    rw [show pairList (List.length [loneBody]) = [] from rfl] at hij
    simp at hij
  · simp only [tick]
    rw [show scan (-2) 1 (fun _ => "") [loneBody] = ⟨[loneBody], [], [], []⟩ from rfl,
      applyDeletes_nil]
    simp only [List.map_cons, List.map_nil, totalMomentum, loneBody, mkBody,
      Body.move_mass, Body.boost_mass, Body.move_vel, Body.boost_vel]
    simp [Vec.ext_iff]

/-- A single body at rest frame zero, used as a concrete registry. -/
noncomputable def restBody : Body := mkBody 2 1000000 ⟨3, 4⟩ ⟨0.5, 0⟩ (25, 25, 25) "w"

/-- Witness for tick_momentum: one body, zero reference velocity. -/
theorem tick_momentum_example :
    noCollide [restBody] ∧
    totalMomentum (tick (-2) 1 (fun _ => "") ⟨0, 0⟩ [restBody])
      = totalMomentum [restBody] := by
  have hnc : noCollide [restBody] := by
    intro ij hij
    rw [show pairList (List.length [restBody]) = [] from rfl] at hij
    simp at hij
  exact ⟨hnc, (tick_momentum (-2) 1 (fun _ => "") ⟨0, 0⟩ [restBody] hnc).2 rfl⟩

/-- Claim C9, amended: in a tick in which no pair collides, every force
evaluation of the pair scan receives bodies at tick-start positions, no
position changes during the scan and collision resolution, and positions
advance only in the final move phase, each by dt times the post-scan,
frame-shifted velocity (explicit Euler). -/
theorem tick_explicit_euler (p dt : ℝ) (fmt : ℝ → String) (vshift : Vec)
    (sys : List Body) (hnc : noCollide sys) :
    (∀ e ∈ (scan p dt fmt sys).flog,
      e.2.2.1.pos = startPos sys e.1 ∧ e.2.2.2.pos = startPos sys e.2.1) ∧
    (scan p dt fmt sys).sys.map Body.pos = sys.map Body.pos ∧
    (tick p dt fmt vshift sys).map Body.pos
      = (scan p dt fmt sys).sys.map fun b => b.pos + dt * (b.vel + -vshift) := by
  have hinv := scan_inv p dt fmt sys hnc
  refine ⟨hinv.flog_start, hinv.pos_eq, ?_⟩
  simp only [tick]
  rw [hinv.del_nil, applyDeletes_nil, List.map_map]
  rfl

/-- A single body used as a concrete registry for the ordering theorem. -/
noncomputable def driftBody : Body := mkBody 5 1000000 ⟨2, 0⟩ ⟨0, 1⟩ (25, 25, 25) "d"

/-- Witness for tick_explicit_euler at a concrete one-body registry. -/
theorem tick_explicit_euler_example :
    noCollide [driftBody] ∧
    (scan (-2) 1 (fun _ => "") [driftBody]).sys.map Body.pos
      = [driftBody].map Body.pos := by
  have hnc : noCollide [driftBody] := by
    intro ij hij
    rw [show pairList (List.length [driftBody]) = [] from rfl] at hij
    simp at hij
  exact ⟨hnc, (tick_explicit_euler (-2) 1 (fun _ => "") ⟨0, 0⟩ [driftBody] hnc).2.1⟩

/-! ### Numeric facts about radScale and the collision predicate -/

lemma logb_ten_pow (k : ℕ) : Real.logb 10 ((10 : ℝ) ^ (k : ℕ)) = k := by
  rw [← Real.rpow_natCast (10 : ℝ) k, Real.logb_rpow (by norm_num) (by norm_num)]

lemma radScale_ten_pow (k : ℕ) :
    radScale ((10 : ℝ) ^ (k : ℕ)) = 2.5 * ((k : ℝ) / 100 - 0.030) := by
  rw [radScale, logb_ten_pow]
  norm_num

lemma radScale_1e6 : radScale 1000000 = 0.075 := by
  rw [show (1000000 : ℝ) = (10 : ℝ) ^ (6 : ℕ) from by norm_num, radScale_ten_pow]
  norm_num

lemma radScale_1e8 : radScale 100000000 = 0.125 := by
  rw [show (100000000 : ℝ) = (10 : ℝ) ^ (8 : ℕ) from by norm_num, radScale_ten_pow]
  norm_num

lemma radScale_one : radScale 1 = -0.075 := by
  rw [radScale, Real.logb_one]
  norm_num

lemma radScale_mono {a b : ℝ} (ha : 0 < a) (hab : a ≤ b) : radScale a ≤ radScale b := by
  unfold radScale
  have hl := Real.logb_le_logb_of_le (by norm_num : (1 : ℝ) < 10) ha hab
  have h100 : ((10 : ℝ) ^ 2) = 100 := by norm_num
  rw [h100]
  linarith

/-- A radius is below the cube root of the sum of cubes that the merge
produces from it and a second positive radius. -/
lemma le_merged_rad {r1 r2 : ℝ} (h1 : 0 < r1) (h2 : 0 < r2) :
    r1 ≤ (r1 ^ 3 + r2 ^ 3) ^ ((1 : ℝ) / 3) := by
  have h3 : (r1 : ℝ) ^ (3 : ℕ) ≤ r1 ^ 3 + r2 ^ 3 := by nlinarith [pow_pos h2 3]
  calc r1 = ((r1 : ℝ) ^ (3 : ℕ)) ^ ((1 : ℝ) / 3) := by
        rw [← Real.rpow_natCast r1 3, ← Real.rpow_mul (le_of_lt h1)]
        norm_num
    _ ≤ (r1 ^ 3 + r2 ^ 3) ^ ((1 : ℝ) / 3) :=
        Real.rpow_le_rpow (by positivity) h3 (by norm_num)

lemma merged_rad_1e6_pos :
    (0 : ℝ) < ((1000000 : ℝ) ^ 3 + (1000000 : ℝ) ^ 3) ^ ((1 : ℝ) / 3) :=
  Real.rpow_pos_of_pos (by norm_num) _

lemma merged_rad_1e6_le :
    ((1000000 : ℝ) ^ 3 + (1000000 : ℝ) ^ 3) ^ ((1 : ℝ) / 3) ≤ 10000000 := by
  have h1 : ((1000000 : ℝ) ^ 3 + (1000000 : ℝ) ^ 3) ≤ (10000000 : ℝ) ^ 3 := by norm_num
  calc ((1000000 : ℝ) ^ 3 + (1000000 : ℝ) ^ 3) ^ ((1 : ℝ) / 3)
      ≤ ((10000000 : ℝ) ^ 3) ^ ((1 : ℝ) / 3) :=
        Real.rpow_le_rpow (by norm_num) h1 (by norm_num)
    _ = 10000000 := by
        rw [← Real.rpow_natCast (10000000 : ℝ) 3, ← Real.rpow_mul (by norm_num)]
        norm_num

lemma radScale_merged_1e6_le :
    radScale (((1000000 : ℝ) ^ 3 + (1000000 : ℝ) ^ 3) ^ ((1 : ℝ) / 3)) ≤ 0.1 := by
  have h := radScale_mono merged_rad_1e6_pos merged_rad_1e6_le
  rw [show (10000000 : ℝ) = (10 : ℝ) ^ (7 : ℕ) from by norm_num, radScale_ten_pow] at h
  calc radScale (((1000000 : ℝ) ^ 3 + (1000000 : ℝ) ^ 3) ^ ((1 : ℝ) / 3))
      ≤ 2.5 * (((7 : ℕ) : ℝ) / 100 - 0.030) := h
    _ ≤ 0.1 := by norm_num

/-- Two coordinate sets collide when the squared distance is below the
square of a bound that is itself at most the radius sum plus the margin. -/
lemma collision_of_near (c : ℝ) {p1 p2 : Vec} {r1 r2 : ℝ}
    (hc : c ≤ r1 + r2 + 0.05) (hcpos : 0 < c)
    (hd : ((p1 - p2) * (p1 - p2) : ℝ) < c ^ 2) : collision p1 r1 p2 r2 := by
  unfold collision
  calc Real.sqrt ((p1 - p2) * (p1 - p2)) < c := (Real.sqrt_lt' hcpos).mpr hd
    _ ≤ r1 + r2 + 0.05 := hc

/-- Two coordinate sets do not collide when the squared distance is at
least the square of a bound that dominates the radius sum plus margin. -/
lemma not_collision_of_far (c : ℝ) {p1 p2 : Vec} {r1 r2 : ℝ}
    (hc : r1 + r2 + 0.05 ≤ c) (hcpos : 0 < c)
    (hd : c ^ 2 ≤ ((p1 - p2) * (p1 - p2) : ℝ)) : ¬ collision p1 r1 p2 r2 := by
  unfold collision
  push_neg
  calc r1 + r2 + 0.05 ≤ c := hc
    _ ≤ Real.sqrt ((p1 - p2) * (p1 - p2)) := (Real.le_sqrt' hcpos).mpr hd

/-- Two sentinel slots never collide: their distance is 0 but the slack
0.05 is outweighed by twice the negative display radius of radius 1. -/
lemma sentinel_no_collision :
    ¬ collision sentinelBody.pos (radScale sentinelBody.rad) sentinelBody.pos
        (radScale sentinelBody.rad) := by
  rw [show sentinelBody.rad = 1 from rfl, radScale_one]
  unfold collision
  simp only [Vec.dot_def, Vec.sub_x, Vec.sub_y, sub_self, mul_zero, zero_mul, add_zero]
  rw [Real.sqrt_zero]
  norm_num

@[simp] lemma mergeBody_mass (fmt : ℝ → String) (b1 b2 : Body) :
    (mergeBody fmt b1 b2).mass = b1.mass + b2.mass := rfl

@[simp] lemma mergeBody_pos (fmt : ℝ → String) (b1 b2 : Body) :
    (mergeBody fmt b1 b2).pos = b1.pos := rfl

@[simp] lemma mergeBody_rad (fmt : ℝ → String) (b1 b2 : Body) :
    (mergeBody fmt b1 b2).rad = (b1.rad ^ 3 + b2.rad ^ 3) ^ ((1 : ℝ) / 3) := rfl

/-- Deleting marked slots 1 and 2 from a three-slot registry keeps only
slot 0. -/
lemma applyDeletes_12 (x y z : Body) : applyDeletes [x, y, z] [1, 2] = [x] := rfl

/-! ### Collision resolution on a registry of three overlapping bodies -/

/-- Claim C3, amended: on a registry of three mutually overlapping bodies
with positive radii, the scan merges exactly the qualifying pairs (0,1) and
then (0,2) (pair (1,2), both slots already consumed and holding sentinels,
does not merge again), marks exactly slots 1 and 2 for deletion, and the
compacted registry is a single body carrying the summed mass, so no body is
double-consumed.  The consumed slot is replaced by the zero-mass origin
sentinel, so the consumed body itself takes no further part; the sentinel
occupying a marked slot can, however, re-enter a merge when another body
overlaps the origin (see the counterexample). -/
theorem three_overlap_single_merges (p dt : ℝ) (fmt : ℝ → String) (b0 b1 b2 : Body)
    (h0 : 0 < b0.rad) (h1 : 0 < b1.rad)
    (h01 : collision b0.pos (radScale b0.rad) b1.pos (radScale b1.rad))
    (h02 : collision b0.pos (radScale b0.rad) b2.pos (radScale b2.rad))
    (h12 : collision b1.pos (radScale b1.rad) b2.pos (radScale b2.rad)) :
    (scan p dt fmt [b0, b1, b2]).merges = [(0, 1), (0, 2)] ∧
    (scan p dt fmt [b0, b1, b2]).delete = [1, 2] ∧
    (applyDeletes (scan p dt fmt [b0, b1, b2]).sys
        (scan p dt fmt [b0, b1, b2]).delete).length = 1 ∧
    totalMass (applyDeletes (scan p dt fmt [b0, b1, b2]).sys
        (scan p dt fmt [b0, b1, b2]).delete) = b0.mass + b1.mass + b2.mass := by
  have e1 : ∃ x : Body, pairStep p dt fmt ⟨[b0, b1, b2], [], [], []⟩ (0, 1) =
      ⟨[x, sentinelBody, b2], [1], [(0, 1)], [(0, 1, b0, b1)]⟩ ∧
      x.mass = b0.mass + b1.mass ∧ x.pos = b0.pos ∧
      x.rad = (b0.rad ^ 3 + b1.rad ^ 3) ^ ((1 : ℝ) / 3) := by
    refine ⟨mergeBody fmt (b0.boost (boost1V p dt b0 b1)) (b1.boost (boost2V p dt b0 b1)),
      ?_, rfl, rfl, rfl⟩
    simp only [pairStep, List.getD_cons_zero, List.getD_cons_succ, List.set_cons_zero,
      List.set_cons_succ, Body.boost_pos, Body.boost_rad]
    rw [if_pos h01]
    rfl
  obtain ⟨M01, hstep1, hM01mass, hM01pos, hM01rad⟩ := e1
  have hcol02 : collision M01.pos (radScale M01.rad) b2.pos (radScale b2.rad) := by
    rw [hM01pos, hM01rad]
    have hradm : radScale b0.rad ≤ radScale ((b0.rad ^ 3 + b1.rad ^ 3) ^ ((1 : ℝ) / 3)) :=
      radScale_mono h0 (le_merged_rad h0 h1)
    unfold collision at h02 ⊢
    linarith
  have e2 : ∃ y : Body, pairStep p dt fmt
      ⟨[M01, sentinelBody, b2], [1], [(0, 1)], [(0, 1, b0, b1)]⟩ (0, 2) =
      ⟨[y, sentinelBody, sentinelBody], [1, 2], [(0, 1), (0, 2)],
        [(0, 1, b0, b1), (0, 2, M01, b2)]⟩ ∧
      y.mass = M01.mass + b2.mass := by
    refine ⟨mergeBody fmt (M01.boost (boost1V p dt M01 b2)) (b2.boost (boost2V p dt M01 b2)),
      ?_, rfl⟩
    simp only [pairStep, List.getD_cons_zero, List.getD_cons_succ, List.set_cons_zero,
      List.set_cons_succ, Body.boost_pos, Body.boost_rad]
    rw [if_pos hcol02]
    rfl
  obtain ⟨M012, hstep2, hM012mass⟩ := e2
  have e3 : pairStep p dt fmt ⟨[M012, sentinelBody, sentinelBody], [1, 2],
      [(0, 1), (0, 2)], [(0, 1, b0, b1), (0, 2, M01, b2)]⟩ (1, 2) =
      ⟨[M012, sentinelBody.boost (boost1V p dt sentinelBody sentinelBody),
        sentinelBody.boost (boost2V p dt sentinelBody sentinelBody)], [1, 2],
        [(0, 1), (0, 2)],
        [(0, 1, b0, b1), (0, 2, M01, b2), (1, 2, sentinelBody, sentinelBody)]⟩ := by
    simp only [pairStep, List.getD_cons_zero, List.getD_cons_succ, List.set_cons_zero,
      List.set_cons_succ, Body.boost_pos, Body.boost_rad]
    rw [if_neg sentinel_no_collision]
    rfl
  have hscan : scan p dt fmt [b0, b1, b2] =
      ⟨[M012, sentinelBody.boost (boost1V p dt sentinelBody sentinelBody),
        sentinelBody.boost (boost2V p dt sentinelBody sentinelBody)], [1, 2],
        [(0, 1), (0, 2)],
        [(0, 1, b0, b1), (0, 2, M01, b2), (1, 2, sentinelBody, sentinelBody)]⟩ := by
    unfold scan
    rw [show pairList (List.length [b0, b1, b2]) = [(0, 1), (0, 2), (1, 2)] from rfl]
    simp only [List.foldl_cons, List.foldl_nil]
    rw [hstep1, hstep2, e3]
  rw [hscan]
  dsimp only
  refine ⟨rfl, rfl, ?_, ?_⟩
  · rw [applyDeletes_12]
    rfl
  · rw [applyDeletes_12]
    unfold totalMass
    simp only [List.map_cons, List.map_nil, List.sum_cons, List.sum_nil, add_zero]
    rw [hM012mass, hM01mass]

/-- Three mutually overlapping concrete bodies on the x axis. -/
noncomputable def a0 : Body := mkBody 2 1000000 ⟨1, 0⟩ ⟨0, 0⟩ (10, 10, 10) ""

/-- Second of the three mutually overlapping concrete bodies. -/
noncomputable def a1 : Body := mkBody 3 1000000 ⟨1.05, 0⟩ ⟨0, 0⟩ (10, 10, 10) ""

/-- Third of the three mutually overlapping concrete bodies. -/
noncomputable def a2 : Body := mkBody 5 1000000 ⟨1.1, 0⟩ ⟨0, 0⟩ (10, 10, 10) ""

/-- Witness for three_overlap_single_merges: three mutually overlapping
bodies of masses 2, 3, 5. -/
theorem three_overlap_single_merges_example :
    (0 < a0.rad ∧ 0 < a1.rad ∧
      collision a0.pos (radScale a0.rad) a1.pos (radScale a1.rad) ∧
      collision a0.pos (radScale a0.rad) a2.pos (radScale a2.rad) ∧
      collision a1.pos (radScale a1.rad) a2.pos (radScale a2.rad)) ∧
    (scan (-2) 1 (fun _ => "") [a0, a1, a2]).merges = [(0, 1), (0, 2)] ∧
    totalMass (applyDeletes (scan (-2) 1 (fun _ => "") [a0, a1, a2]).sys
      (scan (-2) 1 (fun _ => "") [a0, a1, a2]).delete)
      = a0.mass + a1.mass + a2.mass := by
  have hr0 : (0 : ℝ) < a0.rad := by
    rw [show a0.rad = (1000000 : ℝ) from rfl]; norm_num
  have hr1 : (0 : ℝ) < a1.rad := by
    rw [show a1.rad = (1000000 : ℝ) from rfl]; norm_num
  have hc01 : collision a0.pos (radScale a0.rad) a1.pos (radScale a1.rad) := by
    rw [show a0.pos = (⟨1, 0⟩ : Vec) from rfl, show a1.pos = (⟨1.05, 0⟩ : Vec) from rfl,
      show a0.rad = (1000000 : ℝ) from rfl, show a1.rad = (1000000 : ℝ) from rfl,
      radScale_1e6]
    refine collision_of_near 0.2 (by norm_num) (by norm_num) ?_
    simp only [Vec.dot_def, Vec.sub_x, Vec.sub_y]
    norm_num
  have hc02 : collision a0.pos (radScale a0.rad) a2.pos (radScale a2.rad) := by
    rw [show a0.pos = (⟨1, 0⟩ : Vec) from rfl, show a2.pos = (⟨1.1, 0⟩ : Vec) from rfl,
      show a0.rad = (1000000 : ℝ) from rfl, show a2.rad = (1000000 : ℝ) from rfl,
      radScale_1e6]
    refine collision_of_near 0.2 (by norm_num) (by norm_num) ?_
    simp only [Vec.dot_def, Vec.sub_x, Vec.sub_y]
    norm_num
  have hc12 : collision a1.pos (radScale a1.rad) a2.pos (radScale a2.rad) := by
    rw [show a1.pos = (⟨1.05, 0⟩ : Vec) from rfl, show a2.pos = (⟨1.1, 0⟩ : Vec) from rfl,
      show a1.rad = (1000000 : ℝ) from rfl, show a2.rad = (1000000 : ℝ) from rfl,
      radScale_1e6]
    refine collision_of_near 0.2 (by norm_num) (by norm_num) ?_
    simp only [Vec.dot_def, Vec.sub_x, Vec.sub_y]
    norm_num
  have h := three_overlap_single_merges (-2) 1 (fun _ => "") a0 a1 a2 hr0 hr1 hc01 hc02 hc12
  exact ⟨⟨hr0, hr1, hc01, hc02, hc12⟩, h.1, h.2.2.2⟩

/-- Concrete registry for the force-ordering counterexample: the first two
bodies overlap, the third is far away. -/
noncomputable def c90 : Body := mkBody 3 1000000 ⟨5, 0⟩ ⟨0, 0⟩ (10, 10, 10) ""

/-- Second body of the force-ordering counterexample registry. -/
noncomputable def c91 : Body := mkBody 4 1000000 ⟨5.05, 0⟩ ⟨0, 0⟩ (10, 10, 10) ""

/-- Third body of the force-ordering counterexample registry. -/
noncomputable def c92 : Body := mkBody 6 1000000 ⟨100, 0⟩ ⟨0, 0⟩ (10, 10, 10) ""

/-- Claim C9 counterexample: in a tick in which the pair (0,1) merges, the
force evaluation for the later pair (1,2) receives the origin sentinel that
replaced slot 1, at position (0,0), not the tick-start position (5.05, 0)
of the body that started the tick in slot 1. -/
theorem force_reads_sentinel_position :
    (scan (-2) 1 (fun _ => "") [c90, c91, c92]).merges = [(0, 1)] ∧
    ((scan (-2) 1 (fun _ => "") [c90, c91, c92]).flog.getD 2
        (0, 0, sentinelBody, sentinelBody)).2.2.1.pos = ⟨0, 0⟩ ∧
    startPos [c90, c91, c92] 1 = ⟨5.05, 0⟩ ∧
    ((⟨0, 0⟩ : Vec) ≠ (⟨5.05, 0⟩ : Vec)) := by
  have hc01 : collision c90.pos (radScale c90.rad) c91.pos (radScale c91.rad) := by
    rw [show c90.pos = (⟨5, 0⟩ : Vec) from rfl, show c91.pos = (⟨5.05, 0⟩ : Vec) from rfl,
      show c90.rad = (1000000 : ℝ) from rfl, show c91.rad = (1000000 : ℝ) from rfl,
      radScale_1e6]
    refine collision_of_near 0.2 (by norm_num) (by norm_num) ?_
    simp only [Vec.dot_def, Vec.sub_x, Vec.sub_y]
    norm_num
  have e1 : ∃ x : Body, pairStep (-2) 1 (fun _ => "") ⟨[c90, c91, c92], [], [], []⟩ (0, 1) =
      ⟨[x, sentinelBody, c92], [1], [(0, 1)], [(0, 1, c90, c91)]⟩ ∧
      x.pos = c90.pos ∧ x.rad = (c90.rad ^ 3 + c91.rad ^ 3) ^ ((1 : ℝ) / 3) := by
    refine ⟨mergeBody (fun _ => "") (c90.boost (boost1V (-2) 1 c90 c91))
      (c91.boost (boost2V (-2) 1 c90 c91)), ?_, rfl, rfl⟩
    simp only [pairStep, List.getD_cons_zero, List.getD_cons_succ, List.set_cons_zero,
      List.set_cons_succ, Body.boost_pos, Body.boost_rad]
    rw [if_pos hc01]
    rfl
  obtain ⟨M01, hstep1, hM01pos, hM01rad⟩ := e1
  have hnc02 : ¬ collision M01.pos (radScale M01.rad) c92.pos (radScale c92.rad) := by
    rw [hM01pos, hM01rad, show c90.pos = (⟨5, 0⟩ : Vec) from rfl,
      show c90.rad = (1000000 : ℝ) from rfl, show c91.rad = (1000000 : ℝ) from rfl,
      show c92.pos = (⟨100, 0⟩ : Vec) from rfl, show c92.rad = (1000000 : ℝ) from rfl,
      radScale_1e6]
    refine not_collision_of_far 0.225 ?_ (by norm_num) ?_
    · have hb := radScale_merged_1e6_le
      linarith
    · simp only [Vec.dot_def, Vec.sub_x, Vec.sub_y]
      norm_num
  have e2 : pairStep (-2) 1 (fun _ => "")
      ⟨[M01, sentinelBody, c92], [1], [(0, 1)], [(0, 1, c90, c91)]⟩ (0, 2) =
      ⟨[M01.boost (boost1V (-2) 1 M01 c92), sentinelBody,
        c92.boost (boost2V (-2) 1 M01 c92)], [1], [(0, 1)],
        [(0, 1, c90, c91), (0, 2, M01, c92)]⟩ := by
    simp only [pairStep, List.getD_cons_zero, List.getD_cons_succ, List.set_cons_zero,
      List.set_cons_succ, Body.boost_pos, Body.boost_rad]
    rw [if_neg hnc02]
    rfl
  have hnc12 : ¬ collision sentinelBody.pos (radScale sentinelBody.rad) c92.pos
      (radScale c92.rad) := by
    rw [show sentinelBody.pos = (⟨0, 0⟩ : Vec) from rfl,
      show sentinelBody.rad = (1 : ℝ) from rfl, radScale_one,
      show c92.pos = (⟨100, 0⟩ : Vec) from rfl, show c92.rad = (1000000 : ℝ) from rfl,
      radScale_1e6]
    refine not_collision_of_far 0.05 (by norm_num) (by norm_num) ?_
    simp only [Vec.dot_def, Vec.sub_x, Vec.sub_y]
    norm_num
  have e3 : pairStep (-2) 1 (fun _ => "")
      ⟨[M01.boost (boost1V (-2) 1 M01 c92), sentinelBody,
        c92.boost (boost2V (-2) 1 M01 c92)], [1], [(0, 1)],
        [(0, 1, c90, c91), (0, 2, M01, c92)]⟩ (1, 2) =
      ⟨[M01.boost (boost1V (-2) 1 M01 c92),
        sentinelBody.boost (boost1V (-2) 1 sentinelBody
          (c92.boost (boost2V (-2) 1 M01 c92))),
        (c92.boost (boost2V (-2) 1 M01 c92)).boost (boost2V (-2) 1 sentinelBody
          (c92.boost (boost2V (-2) 1 M01 c92)))], [1], [(0, 1)],
        [(0, 1, c90, c91), (0, 2, M01, c92),
          (1, 2, sentinelBody, c92.boost (boost2V (-2) 1 M01 c92))]⟩ := by
    simp only [pairStep, List.getD_cons_zero, List.getD_cons_succ, List.set_cons_zero,
      List.set_cons_succ, Body.boost_pos, Body.boost_rad]
    rw [if_neg hnc12]
    rfl
  have hscan : scan (-2) 1 (fun _ => "") [c90, c91, c92] =
      ⟨[M01.boost (boost1V (-2) 1 M01 c92),
        sentinelBody.boost (boost1V (-2) 1 sentinelBody
          (c92.boost (boost2V (-2) 1 M01 c92))),
        (c92.boost (boost2V (-2) 1 M01 c92)).boost (boost2V (-2) 1 sentinelBody
          (c92.boost (boost2V (-2) 1 M01 c92)))], [1], [(0, 1)],
        [(0, 1, c90, c91), (0, 2, M01, c92),
          (1, 2, sentinelBody, c92.boost (boost2V (-2) 1 M01 c92))]⟩ := by
    unfold scan
    rw [show pairList (List.length [c90, c91, c92]) = [(0, 1), (0, 2), (1, 2)] from rfl]
    simp only [List.foldl_cons, List.foldl_nil]
    rw [hstep1, e2, e3]
  rw [hscan]
  refine ⟨rfl, rfl, rfl, ?_⟩
  simp only [ne_eq, Vec.mk.injEq, not_and]
  intro hx
  norm_num at hx

/-- Concrete registry for the marked-slot counterexample: the first two
bodies overlap away from the origin; the third, large body sits next to the
origin, where the sentinel of a merged slot is placed. -/
noncomputable def cc0 : Body := mkBody 2 1000000 ⟨5, 0⟩ ⟨0, 0⟩ (10, 10, 10) ""

/-- Second body of the marked-slot counterexample registry. -/
noncomputable def cc1 : Body := mkBody 3 1000000 ⟨5.05, 0⟩ ⟨0, 0⟩ (10, 10, 10) ""

/-- Third body of the marked-slot counterexample registry, radius 10^8,
placed 0.05 from the origin. -/
noncomputable def cc2 : Body := mkBody 5 100000000 ⟨0.05, 0⟩ ⟨0, 0⟩ (10, 10, 10) ""

/-- Claim C3 counterexample: after the pair (0,1) merges, slot 1 is marked
for removal and holds the origin sentinel, yet that marked slot takes part
in a second merge with the body near the origin at pair (1,2): the merge
log is [(0,1), (1,2)].  The slot is still deleted afterwards, so the third
body is consumed into a doomed slot and the compacted registry keeps total
mass 5 out of the original 10. -/
theorem marked_slot_remerges :
    (scan (-2) 1 (fun _ => "") [cc0, cc1, cc2]).merges = [(0, 1), (1, 2)] ∧
    (scan (-2) 1 (fun _ => "") [cc0, cc1, cc2]).delete = [1, 2] ∧
    totalMass (applyDeletes (scan (-2) 1 (fun _ => "") [cc0, cc1, cc2]).sys
      (scan (-2) 1 (fun _ => "") [cc0, cc1, cc2]).delete) = 5 ∧
    totalMass [cc0, cc1, cc2] = 10 := by
  have hc01 : collision cc0.pos (radScale cc0.rad) cc1.pos (radScale cc1.rad) := by
    rw [show cc0.pos = (⟨5, 0⟩ : Vec) from rfl, show cc1.pos = (⟨5.05, 0⟩ : Vec) from rfl,
      show cc0.rad = (1000000 : ℝ) from rfl, show cc1.rad = (1000000 : ℝ) from rfl,
      radScale_1e6]
    refine collision_of_near 0.2 (by norm_num) (by norm_num) ?_
    simp only [Vec.dot_def, Vec.sub_x, Vec.sub_y]
    norm_num
  have e1 : ∃ x : Body, pairStep (-2) 1 (fun _ => "") ⟨[cc0, cc1, cc2], [], [], []⟩ (0, 1) =
      ⟨[x, sentinelBody, cc2], [1], [(0, 1)], [(0, 1, cc0, cc1)]⟩ ∧
      x.mass = cc0.mass + cc1.mass ∧
      x.pos = cc0.pos ∧ x.rad = (cc0.rad ^ 3 + cc1.rad ^ 3) ^ ((1 : ℝ) / 3) := by
    refine ⟨mergeBody (fun _ => "") (cc0.boost (boost1V (-2) 1 cc0 cc1))
      (cc1.boost (boost2V (-2) 1 cc0 cc1)), ?_, rfl, rfl, rfl⟩
    simp only [pairStep, List.getD_cons_zero, List.getD_cons_succ, List.set_cons_zero,
      List.set_cons_succ, Body.boost_pos, Body.boost_rad]
    rw [if_pos hc01]
    rfl
  obtain ⟨M01, hstep1, hM01mass, hM01pos, hM01rad⟩ := e1
  have hnc02 : ¬ collision M01.pos (radScale M01.rad) cc2.pos (radScale cc2.rad) := by
    rw [hM01pos, hM01rad, show cc0.pos = (⟨5, 0⟩ : Vec) from rfl,
      show cc0.rad = (1000000 : ℝ) from rfl, show cc1.rad = (1000000 : ℝ) from rfl,
      show cc2.pos = (⟨0.05, 0⟩ : Vec) from rfl,
      show cc2.rad = (100000000 : ℝ) from rfl, radScale_1e8]
    refine not_collision_of_far 0.275 ?_ (by norm_num) ?_
    · have hb := radScale_merged_1e6_le
      linarith
    · simp only [Vec.dot_def, Vec.sub_x, Vec.sub_y]
      norm_num
  have e2 : pairStep (-2) 1 (fun _ => "")
      ⟨[M01, sentinelBody, cc2], [1], [(0, 1)], [(0, 1, cc0, cc1)]⟩ (0, 2) =
      ⟨[M01.boost (boost1V (-2) 1 M01 cc2), sentinelBody,
        cc2.boost (boost2V (-2) 1 M01 cc2)], [1], [(0, 1)],
        [(0, 1, cc0, cc1), (0, 2, M01, cc2)]⟩ := by
    simp only [pairStep, List.getD_cons_zero, List.getD_cons_succ, List.set_cons_zero,
      List.set_cons_succ, Body.boost_pos, Body.boost_rad]
    rw [if_neg hnc02]
    rfl
  have hc12 : collision sentinelBody.pos (radScale sentinelBody.rad) cc2.pos
      (radScale cc2.rad) := by
    rw [show sentinelBody.pos = (⟨0, 0⟩ : Vec) from rfl,
      show sentinelBody.rad = (1 : ℝ) from rfl, radScale_one,
      show cc2.pos = (⟨0.05, 0⟩ : Vec) from rfl,
      show cc2.rad = (100000000 : ℝ) from rfl, radScale_1e8]
    refine collision_of_near 0.1 (by norm_num) (by norm_num) ?_
    simp only [Vec.dot_def, Vec.sub_x, Vec.sub_y]
    norm_num
  have e3 : ∃ z : Body, pairStep (-2) 1 (fun _ => "")
      ⟨[M01.boost (boost1V (-2) 1 M01 cc2), sentinelBody,
        cc2.boost (boost2V (-2) 1 M01 cc2)], [1], [(0, 1)],
        [(0, 1, cc0, cc1), (0, 2, M01, cc2)]⟩ (1, 2) =
      ⟨[M01.boost (boost1V (-2) 1 M01 cc2), z, sentinelBody], [1, 2],
        [(0, 1), (1, 2)],
        [(0, 1, cc0, cc1), (0, 2, M01, cc2),
          (1, 2, sentinelBody, cc2.boost (boost2V (-2) 1 M01 cc2))]⟩ := by
    refine ⟨mergeBody (fun _ => "")
      (sentinelBody.boost (boost1V (-2) 1 sentinelBody
        (cc2.boost (boost2V (-2) 1 M01 cc2))))
      ((cc2.boost (boost2V (-2) 1 M01 cc2)).boost (boost2V (-2) 1 sentinelBody
        (cc2.boost (boost2V (-2) 1 M01 cc2)))), ?_⟩
    simp only [pairStep, List.getD_cons_zero, List.getD_cons_succ, List.set_cons_zero,
      List.set_cons_succ, Body.boost_pos, Body.boost_rad]
    rw [if_pos hc12]
    rfl
  obtain ⟨M12, hstep3⟩ := e3
  have hscan : scan (-2) 1 (fun _ => "") [cc0, cc1, cc2] =
      ⟨[M01.boost (boost1V (-2) 1 M01 cc2), M12, sentinelBody], [1, 2],
        [(0, 1), (1, 2)],
        [(0, 1, cc0, cc1), (0, 2, M01, cc2),
          (1, 2, sentinelBody, cc2.boost (boost2V (-2) 1 M01 cc2))]⟩ := by
    unfold scan
    rw [show pairList (List.length [cc0, cc1, cc2]) = [(0, 1), (0, 2), (1, 2)] from rfl]
    simp only [List.foldl_cons, List.foldl_nil]
    rw [hstep1, e2, hstep3]
  rw [hscan]
  refine ⟨rfl, rfl, ?_, ?_⟩
  · rw [applyDeletes_12]
    unfold totalMass
    simp only [List.map_cons, List.map_nil, List.sum_cons, List.sum_nil, add_zero,
      Body.boost_mass]
    rw [hM01mass, show cc0.mass = (2 : ℝ) from rfl, show cc1.mass = (3 : ℝ) from rfl]
    norm_num
  · unfold totalMass
    simp only [List.map_cons, List.map_nil, List.sum_cons, List.sum_nil, add_zero]
    rw [show cc0.mass = (2 : ℝ) from rfl, show cc1.mass = (3 : ℝ) from rfl,
      show cc2.mass = (5 : ℝ) from rfl]
    norm_num

end OrbitSim
